import Mathlib

/-!
Verification of the goputioarr transfer lifecycle engine against its
specification.  The Go source is shallowly embedded: pure helpers become
Lean functions, the stateful control loops (polling producer, seeding
watcher, import watcher, history pagination) become explicit recursion
over finite sequences of remote responses, and remote calls are recorded
in explicit traces.
-/

namespace Goputioarr

/-! ## Data model -/

/-- Kind of a download target, mirroring `TargetType` in the download
package (`TargetTypeDirectory`, `TargetTypeFile`). -/
inductive TargetType where
  | directory
  | file
deriving DecidableEq, Repr

/-- Mirror of `DownloadTarget`: a file or directory to be materialised
locally.  The Go fields `From`/`To` are called `fromURL`/`toPath` here
because `from` and `to` are reserved words in Lean. -/
structure DownloadTarget where
  fromURL : String
  toPath : String
  targetType : TargetType
  topLevel : Bool
  transferHash : String
deriving DecidableEq, Repr

/-- Mirror of `putio.Transfer` (the remote transfer record).  Only the
fields the verified code paths read are kept. -/
structure PutioTransfer where
  id : Nat
  hash : Option String
  name : Option String
  status : String
  fileID : Option Int
  userfileExists : Bool
deriving DecidableEq, Repr

/-- Mirror of `putio.Transfer.IsDownloadable`: true when `file_id` is
present. -/
def PutioTransfer.IsDownloadable (t : PutioTransfer) : Bool :=
  t.fileID.isSome

/-- Mirror of the download package `Transfer`: the in-process transfer
being driven through the pipeline. -/
structure Transfer where
  name : String
  fileID : Option Int
  hash : Option String
  transferID : Nat
  targets : List DownloadTarget
deriving DecidableEq, Repr

/-- Mirror of `NewTransfer`: builds a `Transfer` from a remote record,
defaulting the name to "Unknown" and leaving the targets empty. -/
def NewTransfer (pt : PutioTransfer) : Transfer :=
  { name := pt.name.getD "Unknown"
    fileID := pt.fileID
    hash := pt.hash
    transferID := pt.id
    targets := [] }

/-- Mirror of `Transfer.GetHash`: the hash, or "0000" when absent. -/
def Transfer.GetHash (t : Transfer) : String :=
  t.hash.getD "0000"

/-- Mirror of `Transfer.SetTargets`. -/
def Transfer.SetTargets (t : Transfer) (targets : List DownloadTarget) : Transfer :=
  { t with targets := targets }

/-- Mirror of `Transfer.GetFileTargets`: only the file targets. -/
def Transfer.GetFileTargets (t : Transfer) : List DownloadTarget :=
  t.targets.filter (fun tgt => tgt.targetType == TargetType.file)

/-- Mirror of `DownloadTarget.String`: the hash is truncated to its first
four characters only when longer than four; otherwise it is shown
unchanged. -/
def DownloadTarget.display (dt : DownloadTarget) : String :=
  let hash := if dt.transferHash.length > 4 then dt.transferHash.take 4 else dt.transferHash
  "[" ++ hash ++ ": " ++ dt.toPath ++ "]"

/-- Mirror of `Transfer.String`: shows the first four characters of the
hash when it is present and at least four characters long, else the
sentinel "0000". -/
def Transfer.display (t : Transfer) : String :=
  let hash :=
    match t.hash with
    | some h => if h.length ≥ 4 then h.take 4 else "0000"
    | none => "0000"
  "[" ++ hash ++ ": " ++ t.name ++ "]"

/-! ## Arr history client: `Client.CheckImported` -/

/-- Mirror of `arr.HistoryRecord`: the event type together with the
string map `data`, modelled as an association list. -/
structure HistoryRecord where
  eventType : String
  data : List (String × String)
deriving DecidableEq, Repr

/-- Mirror of `arr.HistoryResponse`: one page of the history listing. -/
structure HistoryResponse where
  totalRecords : Int
  records : List HistoryRecord
deriving DecidableEq, Repr

/-- The match condition used inside `CheckImported`: event type
"downloadFolderImported" and a `droppedPath` entry equal to the queried
path; a record without a `droppedPath` entry never matches. -/
def recordMatches (targetPath : String) (r : HistoryRecord) : Bool :=
  r.eventType == "downloadFolderImported" &&
    (match r.data.lookup "droppedPath" with
     | some droppedPath => droppedPath == targetPath
     | none => false)

/-- The inner record loop of `CheckImported`: walks the page's records,
returning `none` on the first full match (the function then returns true)
and otherwise the inspected counter incremented once per record. -/
def scanRecords (targetPath : String) : Int → List HistoryRecord → Option Int
  | inspected, [] => some inspected
  | inspected, r :: rs =>
      if recordMatches targetPath r then none
      else scanRecords targetPath (inspected + 1) rs

/-- The page loop of `Client.CheckImported`.  The remote server is
modelled as the finite list of responses it will produce, one per
requested page, in order; when the list is exhausted the next HTTP
request fails, which the Go code surfaces as an error return. -/
def checkImportedLoop (targetPath : String) :
    Int → List (Except Unit HistoryResponse) → Except Unit Bool
  | _, [] => Except.error ()
  | _, Except.error e :: _ => Except.error e
  | inspected, Except.ok resp :: rest =>
      match scanRecords targetPath inspected resp.records with
      | none => Except.ok true
      | some inspected' =>
          if resp.totalRecords > inspected' then
            checkImportedLoop targetPath inspected' rest
          else Except.ok false

/-- Mirror of `Client.CheckImported`: starts at page zero with zero
records inspected. -/
def CheckImported (targetPath : String)
    (pages : List (Except Unit HistoryResponse)) : Except Unit Bool :=
  checkImportedLoop targetPath 0 pages

/-- Concrete two-page history run used by the C7 witness: the first page
holds an unrelated record, the second the matching import record. -/
def c7pages : List (Except Unit HistoryResponse) :=
  [Except.ok { totalRecords := 2, records := [{ eventType := "grabbed", data := [] }] },
   Except.ok { totalRecords := 2, records :=
     [{ eventType := "downloadFolderImported",
        data := [("droppedPath", "/downloads/Movie/x.mkv")] }] }]

/-! ## Transfer lifecycle messages -/

/-- Mirror of `TransferMessageType` (`MessageQueuedForDownload`,
`MessageDownloaded`, `MessageImported`). -/
inductive TransferMessageType where
  | queuedForDownload
  | downloaded
  | imported
deriving DecidableEq, Repr

/-- Mirror of `TransferMessage`: a lifecycle event about a transfer. -/
structure TransferMessage where
  type : TransferMessageType
  transfer : Transfer
deriving DecidableEq, Repr

/-- Mirror of `DownloadDoneStatus` (`DownloadStatusSuccess`,
`DownloadStatusFailed`). -/
inductive DownloadDoneStatus where
  | success
  | failed
deriving DecidableEq, Repr

/-- A remote put.io API call recorded in a trace. -/
inductive RemoteCall where
  | removeTransfer (id : Nat)
  | deleteFile (fileID : Int)
deriving DecidableEq, Repr

/-! ## Polling producer: `Manager.produceTransfers` -/

/-- The per-listing loop of `produceTransfers`: a listed transfer is
skipped when its id is already seen or it is not downloadable; otherwise
a `Queued` message for it is emitted and its id marked seen.  Returns the
emitted messages in listing order together with the seen set after the
loop. -/
def produceLoop : List Nat → List PutioTransfer → List TransferMessage × List Nat
  | seen, [] => ([], seen)
  | seen, pt :: rest =>
      if seen.contains pt.id || !pt.IsDownloadable then produceLoop seen rest
      else
        let next := produceLoop (pt.id :: seen) rest
        ({ type := TransferMessageType.queuedForDownload, transfer := NewTransfer pt } :: next.1,
         next.2)

/-- Mirror of `Manager.cleanupSeen`: ids no longer present in the active
listing are dropped from the seen set. -/
def cleanupSeen (seen : List Nat) (listing : List PutioTransfer) : List Nat :=
  seen.filter (fun id => listing.any (fun t => t.id == id))

/-- One steady-state tick of `produceTransfers` on a successfully fetched
listing: process the listing, then prune the seen set against it. -/
def produceTick (seen : List Nat) (listing : List PutioTransfer) :
    List TransferMessage × List Nat :=
  let r := produceLoop seen listing
  (r.1, cleanupSeen r.2 listing)

/-- A run of steady-state ticks.  Each element is the result of that
tick's `ListTransfers` call; a failed listing is logged and the whole
tick skipped, leaving the seen set untouched. -/
def produceRun (seen : List Nat) : List (Except Unit (List PutioTransfer)) → List TransferMessage
  | [] => []
  | Except.error _ :: ls => produceRun seen ls
  | Except.ok l :: ls =>
      let r := produceTick seen l
      r.1 ++ produceRun r.2 ls

/-- Number of Queued messages for a given transfer id in a message
trace. -/
def countQueued (id : Nat) (msgs : List TransferMessage) : Nat :=
  msgs.countP (fun m =>
    m.type == TransferMessageType.queuedForDownload && m.transfer.transferID == id)

/-- States that a transfer id occurs in every successfully fetched
listing of the run (it is continuously present remotely). -/
def presentInEveryListing (id : Nat) (ticks : List (Except Unit (List PutioTransfer))) : Bool :=
  ticks.all (fun tk =>
    match tk with
    | Except.error _ => true
    | Except.ok l => l.any (fun t => t.id == id))

/-! ## Orchestrator: `Manager.handleQueuedForDownload` -/

/-- Observable outcome of handling a `Queued` event: the targets
dispatched to the download workers, the plan attached to the transfer (if
any), and the messages emitted. -/
structure QueuedOutcome where
  dispatched : List DownloadTarget
  attached : Option (List DownloadTarget)
  emitted : List TransferMessage
deriving DecidableEq, Repr

/-- Mirror of `Manager.handleQueuedForDownload`.  `planResult` is the
result of `getDownloadTargets`; `reply` gives the download status
returned on the i-th target's done channel.  On plan failure the handler
logs and returns; otherwise it dispatches every target, awaits every
reply, and only when all replies are Success attaches the plan and emits
`Downloaded`. -/
def handleQueuedForDownload (transfer : Transfer)
    (planResult : Except Unit (List DownloadTarget))
    (reply : Nat → DownloadDoneStatus) : QueuedOutcome :=
  match planResult with
  | Except.error _ => { dispatched := [], attached := none, emitted := [] }
  | Except.ok targets =>
      let statuses := (List.range targets.length).map reply
      let allSuccess := statuses.all (fun s => s == DownloadDoneStatus.success)
      if allSuccess then
        { dispatched := targets
          attached := some targets
          emitted := [{ type := TransferMessageType.downloaded,
                        transfer := transfer.SetTargets targets }] }
      else
        { dispatched := targets, attached := none, emitted := [] }

/-! ## Import watcher: `Manager.watchForImport` / `Manager.isImported` -/

/-- Mirror of `Manager.isImported`.  An Arr client is modelled as its
`CheckImported` oracle from local path to result.  With no file targets
or no configured clients the function returns false; otherwise every file
target must be confirmed by some client, a client error counting as not
confirmed. -/
def isImported (arrClients : List (String → Except Unit Bool)) (transfer : Transfer) : Bool :=
  let fileTargets := transfer.GetFileTargets
  if fileTargets.length == 0 then false
  else if arrClients.length == 0 then false
  else
    fileTargets.all (fun target =>
      arrClients.any (fun svc =>
        match svc target.toPath with
        | Except.ok b => b
        | Except.error _ => false))

/-- Mirror of the ticker loop of `Manager.watchForImport` over a finite
number of ticks; each element gives the Arr client oracles as they answer
on that tick.  Returns the emitted message, if any, and whether the
watcher is still watching after those ticks. -/
def watchForImport (transfer : Transfer) :
    List (List (String → Except Unit Bool)) → Option TransferMessage × Bool
  | [] => (none, true)
  | clients :: rest =>
      if isImported clients transfer then
        (some { type := TransferMessageType.imported, transfer := transfer }, false)
      else watchForImport transfer rest

/-! ## Seeding watcher: `Manager.watchSeeding` -/

/-- Mirror of the ticker loop of `Manager.watchSeeding` over a finite
number of ticks; each element is that tick's `GetTransfer` result.  A
fetch error is logged and the loop continues; on the first fetched status
different from SEEDING the transfer is removed remotely, its remote file
deleted when the transfer has a file id, and the watcher stops.  Returns
the trace of remote calls and whether the watcher stopped. -/
def watchSeeding (transfer : Transfer) :
    List (Except Unit PutioTransfer) → List RemoteCall × Bool
  | [] => ([], false)
  | Except.error _ :: rest => watchSeeding transfer rest
  | Except.ok resp :: rest =>
      if resp.status ≠ "SEEDING" then
        (RemoteCall.removeTransfer transfer.transferID ::
          (match transfer.fileID with
           | some fid => [RemoteCall.deleteFile fid]
           | none => []), true)
      else watchSeeding transfer rest

/-! ## RPC handler: `Handler.handleTorrentRemove` -/

/-- Mirror of `transmission.TorrentRemoveArguments` (fields `ids` and
`delete-local-data`). -/
structure TorrentRemoveArguments where
  ids : List String
  deleteLocalData : Bool
deriving DecidableEq, Repr

/-- The transfer loop of `handleTorrentRemove`: transfers without a hash
are skipped; a transfer whose hash is among the requested ids gets a
`removeTransfer` call, and — only when that call succeeded (`removeOK`) —
a `deleteFile` call when its userfile exists, delete-local-data was
requested and it has a file id. -/
def removeLoop (ids : List String) (deleteLocalData : Bool) (removeOK : Nat → Bool) :
    List PutioTransfer → List RemoteCall
  | [] => []
  | t :: rest =>
      let tail := removeLoop ids deleteLocalData removeOK rest
      match t.hash with
      | none => tail
      | some h =>
          if ids.contains h then
            RemoteCall.removeTransfer t.id ::
              (if removeOK t.id then
                 if t.userfileExists && deleteLocalData then
                   match t.fileID with
                   | some fid => RemoteCall.deleteFile fid :: tail
                   | none => tail
                 else tail
               else tail)
          else tail

/-- Mirror of `Handler.handleTorrentRemove` on a successfully fetched
transfer listing: with an empty id list it does nothing; otherwise it
runs the removal loop.  The RPC response is a success in both cases
(remote call failures are only logged). -/
def handleTorrentRemove (args : TorrentRemoveArguments)
    (transfers : List PutioTransfer) (removeOK : Nat → Bool) :
    List RemoteCall × String :=
  if args.ids.isEmpty then ([], "success")
  else (removeLoop args.ids args.deleteLocalData removeOK transfers, "success")

/-! ## Plan builder: `Manager.recurseDownloadTargets` -/

/-- Mirror of `putio.FileResponse` (the fields the plan builder reads). -/
structure FileResponse where
  id : Int
  name : String
  fileType : String
deriving DecidableEq, Repr

/-- The remote file system under a root file id, as the plan builder
observes it: each node is the `ListFiles` answer for its id (its own
record plus its children). -/
inductive FileTree where
  | node (info : FileResponse) (children : List FileTree)

/-- Lowercasing used by the skip-directory comparison (models Go
`strings.ToLower`, character by character). -/
def toLowerStr (s : String) : String :=
  String.mk (s.data.map Char.toLower)

/-- Mirror of `ShouldSkipDirectory`: case-insensitive membership of the
name in the configured skip list. -/
def ShouldSkipDirectory (name : String) (skipDirs : List String) : Bool :=
  let lowerName := toLowerStr name
  skipDirs.any (fun skipDir => toLowerStr skipDir == lowerName)

/-- Path join as used by the plan builder (models `filepath.Join` on
already clean components). -/
def joinPath (base name : String) : String :=
  if base = "" then name else base ++ "/" ++ name

/-- The configuration fields the plan builder reads. -/
structure Config where
  downloadDirectory : String
  skipDirectories : List String
deriving DecidableEq, Repr

mutual
/-- Mirror of `Manager.recurseDownloadTargets`.  `urlOf` models
`putioClient.GetFileURL`.  An empty base path stands for the
configured download directory; a FOLDER node whose name should be
skipped yields nothing, otherwise it yields a directory target followed
by its children's targets; a VIDEO node yields one file target; any
other type yields nothing. -/
def recurseDownloadTargets (cfg : Config) (urlOf : Int → String) (hash : String) :
    FileTree → String → Bool → List DownloadTarget
  | FileTree.node info children, basePath, topLevel =>
      let base := if basePath = "" then cfg.downloadDirectory else basePath
      let dest := joinPath base info.name
      if info.fileType = "FOLDER" then
        if ShouldSkipDirectory info.name cfg.skipDirectories then []
        else
          { fromURL := "", toPath := dest, targetType := TargetType.directory,
            topLevel := topLevel, transferHash := hash } ::
            recurseChildren cfg urlOf hash children dest
      else if info.fileType = "VIDEO" then
        [{ fromURL := urlOf info.id, toPath := dest, targetType := TargetType.file,
           topLevel := topLevel, transferHash := hash }]
      else []

/-- The loop over `response.Files` inside `recurseDownloadTargets`:
child targets are appended in order, with the parent's destination as
base path and the top-level flag cleared. -/
def recurseChildren (cfg : Config) (urlOf : Int → String) (hash : String) :
    List FileTree → String → List DownloadTarget
  | [], _ => []
  | c :: cs, base =>
      recurseDownloadTargets cfg urlOf hash c base false
        ++ recurseChildren cfg urlOf hash cs base
end

mutual
/-- Modelled from the spec: "Skip semantics: lowercase compare; skipping
a directory skips its entire subtree."  Removes every FOLDER node whose
case-folded name is in the skip set, together with its whole subtree;
used only to state claim C5 against `recurseDownloadTargets`. -/
def pruneSkipped (skipDirs : List String) : FileTree → Option FileTree
  | FileTree.node info children =>
      if info.fileType = "FOLDER" ∧ ShouldSkipDirectory info.name skipDirs = true then none
      else some (FileTree.node info (pruneForest skipDirs children))

/-- Forest version of `pruneSkipped`. -/
def pruneForest (skipDirs : List String) : List FileTree → List FileTree
  | [] => []
  | c :: cs =>
      match pruneSkipped skipDirs c with
      | none => pruneForest skipDirs cs
      | some c' => c' :: pruneForest skipDirs cs
end

mutual
/-- Every node name in the tree is nonempty (true of any real remote
file listing). -/
def namesNonempty : FileTree → Bool
  | FileTree.node info children => (info.name != "") && forestNamesNonempty children

/-- Forest version of `namesNonempty`. -/
def forestNamesNonempty : List FileTree → Bool
  | [] => true
  | c :: cs => namesNonempty c && forestNamesNonempty cs
end

/-! ## Theorems -/

/-- C9 counterexample: a download target whose transfer hash is shorter
than four characters is displayed with that short hash verbatim, not with
the "0000" sentinel the claim requires. -/
theorem c9_short_hash_counterexample :
    DownloadTarget.display
      { fromURL := "", toPath := "x", targetType := TargetType.file,
        topLevel := false, transferHash := "ab" } ≠ "[0000: x]" := by
  decide

/-- C9 (amended): `Transfer.String` shows the first four characters of
the hash when present and at least four long, else "0000"; but
`DownloadTarget.String` truncates to four characters only when the hash
is longer than four and otherwise shows the stored hash unchanged (it
never substitutes "0000", and it shows the target's local path). -/
theorem c9_display_forms (t : Transfer) (dt : DownloadTarget) :
    (t.hash = none → Transfer.display t = "[0000: " ++ t.name ++ "]")
    ∧ (∀ h, t.hash = some h → h.length < 4 →
        Transfer.display t = "[0000: " ++ t.name ++ "]")
    ∧ (∀ h, t.hash = some h → 4 ≤ h.length →
        Transfer.display t = "[" ++ h.take 4 ++ ": " ++ t.name ++ "]")
    ∧ (dt.transferHash.length ≤ 4 →
        DownloadTarget.display dt = "[" ++ dt.transferHash ++ ": " ++ dt.toPath ++ "]")
    ∧ (4 < dt.transferHash.length →
        DownloadTarget.display dt = "[" ++ dt.transferHash.take 4 ++ ": " ++ dt.toPath ++ "]") := by
  refine ⟨?_, ?_, ?_, ?_, ?_⟩
  · intro hnone
    simp [Transfer.display, hnone]
  · intro h hsome hlen
    simp only [Transfer.display, hsome]
    rw [if_neg (by omega)]
    simp
  · intro h hsome hlen
    simp only [Transfer.display, hsome]
    rw [if_pos (by omega)]
  · intro hlen
    simp only [DownloadTarget.display]
    rw [if_neg (by omega)]
  · intro hlen
    simp only [DownloadTarget.display]
    rw [if_pos (by omega)]

/-- C9 witness: the amended display rules evaluated on concrete inputs. -/
theorem c9_display_forms_witness :
    Transfer.display { name := "M", fileID := none, hash := none,
                       transferID := 1, targets := [] } = "[0000: M]"
    ∧ DownloadTarget.display
        { fromURL := "", toPath := "x", targetType := TargetType.file,
          topLevel := false, transferHash := "abcdef" } = "[abcd: x]" := by
  constructor
  · exact (c9_display_forms
      { name := "M", fileID := none, hash := none, transferID := 1, targets := [] }
      { fromURL := "", toPath := "x", targetType := TargetType.file,
        topLevel := false, transferHash := "abcdef" }).1 rfl
  · exact (c9_display_forms
      { name := "M", fileID := none, hash := none, transferID := 1, targets := [] }
      { fromURL := "", toPath := "x", targetType := TargetType.file,
        topLevel := false, transferHash := "abcdef" }).2.2.2.2 (by decide)

theorem scanRecords_eq_none_iff (targetPath : String) (rs : List HistoryRecord) :
    ∀ n, scanRecords targetPath n rs = none ↔ rs.any (recordMatches targetPath) = true := by
  induction rs with
  | nil => intro n; simp [scanRecords]
  | cons r rs ih =>
      intro n
      by_cases h : recordMatches targetPath r = true
      · simp [scanRecords, h]
      · simp [scanRecords, h, ih]

theorem scanRecords_eq_some (targetPath : String) (rs : List HistoryRecord)
    (h : rs.any (recordMatches targetPath) = false) :
    ∀ n, scanRecords targetPath n rs = some (n + rs.length) := by
  induction rs with
  | nil => intro n; simp [scanRecords]
  | cons r rs ih =>
      intro n
      simp only [List.any_cons, Bool.or_eq_false_iff] at h
      rw [scanRecords, if_neg (by simp [h.1]), ih h.2]
      simp
      omega

theorem checkImportedLoop_ok_true_sound (targetPath : String) :
    ∀ (pages : List (Except Unit HistoryResponse)) (n : Int),
      checkImportedLoop targetPath n pages = Except.ok true →
      ∃ resp, Except.ok resp ∈ pages ∧
        ∃ r ∈ resp.records, recordMatches targetPath r = true := by
  intro pages
  induction pages with
  | nil => intro n h; simp [checkImportedLoop] at h
  | cons p rest ih =>
      intro n h
      match p with
      | Except.error e => simp [checkImportedLoop] at h
      | Except.ok resp =>
          rw [checkImportedLoop] at h
          cases hscan : scanRecords targetPath n resp.records with
          | none =>
              refine ⟨resp, List.mem_cons_self _ _, ?_⟩
              have := (scanRecords_eq_none_iff targetPath resp.records n).1 hscan
              simpa using this
          | some n' =>
              rw [hscan] at h
              dsimp only at h
              by_cases hcont : resp.totalRecords > n'
              · rw [if_pos hcont] at h
                obtain ⟨resp', hmem, hr⟩ := ih n' h
                exact ⟨resp', List.mem_cons_of_mem _ hmem, hr⟩
              · rw [if_neg hcont] at h
                simp at h

/-- C7: one iteration of the `CheckImported` page loop returns true
exactly when some record of the fetched page has event type
"downloadFolderImported" and a `droppedPath` entry equal to the queried
path (records lacking the entry are skipped); with no match it requests
the next page precisely when `totalRecords` exceeds the records inspected
so far and otherwise returns false.  Moreover a true result always comes
from an actually listed matching record. -/
theorem c7_check_imported (targetPath : String) (n : Int)
    (resp : HistoryResponse) (rest : List (Except Unit HistoryResponse))
    (pages : List (Except Unit HistoryResponse)) :
    (checkImportedLoop targetPath n (Except.ok resp :: rest) =
      (if resp.records.any (recordMatches targetPath) then Except.ok true
       else if resp.totalRecords > n + resp.records.length then
         checkImportedLoop targetPath (n + resp.records.length) rest
       else Except.ok false))
    ∧ (CheckImported targetPath pages = Except.ok true →
        ∃ r', Except.ok r' ∈ pages ∧
          ∃ r ∈ r'.records, recordMatches targetPath r = true) := by
  constructor
  · by_cases hmatch : resp.records.any (recordMatches targetPath) = true
    · rw [if_pos hmatch, checkImportedLoop,
        (scanRecords_eq_none_iff targetPath resp.records n).2 hmatch]
    · rw [if_neg hmatch, checkImportedLoop,
        scanRecords_eq_some targetPath resp.records (by simpa using hmatch) n]
  · exact checkImportedLoop_ok_true_sound targetPath pages 0

/-- C7 witness: a two-page history run whose second page carries the
matching record makes `CheckImported` return true, and the theorem
locates a listed matching record for it. -/
theorem c7_check_imported_witness :
    ∃ r', Except.ok r' ∈ c7pages ∧
      ∃ r ∈ r'.records, recordMatches "/downloads/Movie/x.mkv" r = true := by
  exact (c7_check_imported "/downloads/Movie/x.mkv" 0
    { totalRecords := 2, records := [] } [] c7pages).2 (by rfl)

/-- C10: `CheckImported` always reaches a terminating case on a finite
response sequence: it yields either a boolean verdict or the error from
the first failing page request.  In particular a run of pages that all
report `totalRecords = 2000` while returning zero records keeps advancing
through the pages and terminates with the error of the exhausted
sequence, for every length of that run. -/
theorem c10_check_imported_terminates (targetPath : String)
    (pages : List (Except Unit HistoryResponse)) (k : Nat) :
    ((∃ b, CheckImported targetPath pages = Except.ok b)
      ∨ CheckImported targetPath pages = Except.error ())
    ∧ checkImportedLoop targetPath 0
        (List.replicate k (Except.ok { totalRecords := 2000, records := [] })) =
        Except.error () := by
  constructor
  · cases h : CheckImported targetPath pages with
    | ok b => exact Or.inl ⟨b, rfl⟩
    | error e => exact Or.inr (by cases e; rfl)
  · induction k with
    | zero => rfl
    | succ k ih =>
        rw [List.replicate_succ, checkImportedLoop]
        simpa [scanRecords] using ih

theorem isImported_false_of_empty (clients : List (String → Except Unit Bool))
    (transfer : Transfer)
    (h : transfer.GetFileTargets = [] ∨ clients = []) :
    isImported clients transfer = false := by
  rcases h with h | h
  · simp [isImported, h]
  · subst h
    simp [isImported]

/-- C3 counterexample: for a transfer in Downloaded whose file-target set
is empty, ticked with no Arr clients configured, the import watcher does
not stop on that tick: after the tick it is still watching (second
component true), though indeed no Imported message was emitted. -/
theorem c3_watcher_does_not_stop_counterexample :
    watchForImport
      { name := "T", fileID := some 1, hash := none, transferID := 1, targets := [] }
      [[]] = (none, true) := by
  rfl

/-- C3 (amended): for a transfer whose file-target set is empty, or when
no Arr clients are configured on any tick, the import watcher never emits
an Imported message and is still watching after every finite number of
ticks — the transfer stays in Downloaded forever, but the watcher keeps
polling rather than stopping. -/
theorem c3_no_targets_never_imported (transfer : Transfer)
    (oracles : List (List (String → Except Unit Bool)))
    (h : (transfer.GetFileTargets.isEmpty || oracles.all (fun cs => cs.isEmpty)) = true) :
    watchForImport transfer oracles = (none, true) := by
  induction oracles with
  | nil => rfl
  | cons clients rest ih =>
      simp only [Bool.or_eq_true, List.all_cons, Bool.and_eq_true] at h
      have hfalse : isImported clients transfer = false := by
        apply isImported_false_of_empty
        rcases h with h | ⟨h1, _⟩
        · exact Or.inl (by simpa [List.isEmpty_iff] using h)
        · exact Or.inr (by simpa [List.isEmpty_iff] using h1)
      rw [watchForImport, if_neg (by simp [hfalse])]
      apply ih
      rcases h with h | ⟨_, h2⟩
      · simp [h]
      · simp [h2]

/-- C3 witness: a transfer with only a directory target, watched for two
ticks with no Arr clients, emits nothing and is still watching. -/
theorem c3_no_targets_never_imported_witness :
    watchForImport
      { name := "T", fileID := some 1, hash := none, transferID := 1,
        targets := [{ fromURL := "", toPath := "/d/T", targetType := TargetType.directory,
                      topLevel := true, transferHash := "0000" }] }
      [[], []] = (none, true) := by
  exact c3_no_targets_never_imported
    { name := "T", fileID := some 1, hash := none, transferID := 1,
      targets := [{ fromURL := "", toPath := "/d/T", targetType := TargetType.directory,
                    topLevel := true, transferHash := "0000" }] }
    [[], []] (by decide)

/-- C4: the seeding watcher stops exactly when some tick fetches a
status different from SEEDING (fetch errors and SEEDING statuses keep it
ticking); when it stops, its remote-call trace is exactly one
`removeTransfer` for the transfer, followed by one `deleteFile` if and
only if the transfer has a root file id; while it has not stopped it has
made no remote calls. -/
theorem c4_seeding_finalize (transfer : Transfer)
    (ticks : List (Except Unit PutioTransfer)) :
    ((watchSeeding transfer ticks).2 = true ↔
      ∃ r, Except.ok r ∈ ticks ∧ r.status ≠ "SEEDING")
    ∧ ((watchSeeding transfer ticks).2 = true →
        (watchSeeding transfer ticks).1 =
          RemoteCall.removeTransfer transfer.transferID ::
            (match transfer.fileID with
             | some fid => [RemoteCall.deleteFile fid]
             | none => []))
    ∧ ((watchSeeding transfer ticks).2 = false → (watchSeeding transfer ticks).1 = [])
    ∧ ((watchSeeding transfer ticks).2 = true →
        (watchSeeding transfer ticks).1.count
            (RemoteCall.removeTransfer transfer.transferID) = 1
        ∧ ∀ fid, (RemoteCall.deleteFile fid ∈ (watchSeeding transfer ticks).1 ↔
            transfer.fileID = some fid)) := by
  have main : ((watchSeeding transfer ticks).2 = true ↔
      ∃ r, Except.ok r ∈ ticks ∧ r.status ≠ "SEEDING")
      ∧ ((watchSeeding transfer ticks).2 = true →
          (watchSeeding transfer ticks).1 =
            RemoteCall.removeTransfer transfer.transferID ::
              (match transfer.fileID with
               | some fid => [RemoteCall.deleteFile fid]
               | none => []))
      ∧ ((watchSeeding transfer ticks).2 = false → (watchSeeding transfer ticks).1 = []) := by
    induction ticks with
    | nil =>
        refine ⟨by simp [watchSeeding], ?_, ?_⟩
        · intro h; simp [watchSeeding] at h
        · intro _; rfl
    | cons p rest ih =>
        match p with
        | Except.error e =>
            refine ⟨?_, ?_, ?_⟩
            · rw [show watchSeeding transfer (Except.error e :: rest) =
                watchSeeding transfer rest from rfl]
              rw [ih.1]
              constructor
              · rintro ⟨r, hr, hs⟩
                exact ⟨r, List.mem_cons_of_mem _ hr, hs⟩
              · rintro ⟨r, hr, hs⟩
                rcases List.mem_cons.mp hr with h | h
                · simp at h
                · exact ⟨r, h, hs⟩
            · exact ih.2.1
            · exact ih.2.2
        | Except.ok resp =>
            by_cases hs : resp.status = "SEEDING"
            · have hstep : watchSeeding transfer (Except.ok resp :: rest) =
                  watchSeeding transfer rest := by
                rw [watchSeeding, if_neg (by simp [hs])]
              refine ⟨?_, ?_, ?_⟩
              · rw [hstep, ih.1]
                constructor
                · rintro ⟨r, hr, hne⟩
                  exact ⟨r, List.mem_cons_of_mem _ hr, hne⟩
                · rintro ⟨r, hr, hne⟩
                  rcases List.mem_cons.mp hr with h | h
                  · rw [Except.ok.injEq] at h
                    subst h
                    exact absurd hs hne
                  · exact ⟨r, h, hne⟩
              · rw [hstep]; exact ih.2.1
              · rw [hstep]; exact ih.2.2
            · have hstep : watchSeeding transfer (Except.ok resp :: rest) =
                  (RemoteCall.removeTransfer transfer.transferID ::
                    (match transfer.fileID with
                     | some fid => [RemoteCall.deleteFile fid]
                     | none => []), true) := by
                rw [watchSeeding, if_pos hs]
              refine ⟨?_, ?_, ?_⟩
              · rw [hstep]
                simp only [true_iff]
                exact ⟨resp, List.mem_cons_self _ _, hs⟩
              · intro _; rw [hstep]
              · intro hfalse; rw [hstep] at hfalse; simp at hfalse
  refine ⟨main.1, main.2.1, main.2.2, ?_⟩
  intro hstop
  rw [main.2.1 hstop]
  constructor
  · cases hfid : transfer.fileID with
    | none => simp [List.count_cons]
    | some fid => simp [List.count_cons]
  · intro fid
    cases hfid : transfer.fileID with
    | none => simp
    | some f => simp [eq_comm]

/-- C4 witness: a run fetching SEEDING, then a fetch error, then
COMPLETED, for a transfer with root file id 42: the watcher stops with
exactly one removal and one remote file deletion. -/
theorem c4_seeding_finalize_witness :
    (watchSeeding
      { name := "T", fileID := some 42, hash := none, transferID := 7, targets := [] }
      [Except.ok { id := 7, hash := none, name := none, status := "SEEDING",
                   fileID := some 42, userfileExists := true },
       Except.error (),
       Except.ok { id := 7, hash := none, name := none, status := "COMPLETED",
                   fileID := some 42, userfileExists := true }]).1 =
      [RemoteCall.removeTransfer 7, RemoteCall.deleteFile 42] := by
  exact (c4_seeding_finalize
    { name := "T", fileID := some 42, hash := none, transferID := 7, targets := [] }
    [Except.ok { id := 7, hash := none, name := none, status := "SEEDING",
                 fileID := some 42, userfileExists := true },
     Except.error (),
     Except.ok { id := 7, hash := none, name := none, status := "COMPLETED",
                 fileID := some 42, userfileExists := true }]).2.1 (by rfl)

theorem range_map_all_success (reply : Nat → DownloadDoneStatus) (n : Nat) :
    ((List.range n).map reply).all (fun s => s == DownloadDoneStatus.success) = true ↔
      ∀ i < n, reply i = DownloadDoneStatus.success := by
  simp [List.all_eq_true]

/-- C2: on a `Queued` event, a failed plan build produces no dispatch, no
attached plan and no emitted event; on a successful plan build every
target is dispatched, and the plan is attached and `Downloaded` emitted
exactly when every download reply is Success — a single Failed reply
yields no attachment and no event. -/
theorem c2_queued_handling (transfer : Transfer)
    (planResult : Except Unit (List DownloadTarget)) (reply : Nat → DownloadDoneStatus) :
    (∀ e, planResult = Except.error e →
      handleQueuedForDownload transfer planResult reply =
        { dispatched := [], attached := none, emitted := [] })
    ∧ (∀ targets, planResult = Except.ok targets →
        (handleQueuedForDownload transfer planResult reply).dispatched = targets
        ∧ (handleQueuedForDownload transfer planResult reply =
            { dispatched := targets, attached := some targets,
              emitted := [{ type := TransferMessageType.downloaded,
                            transfer := transfer.SetTargets targets }] }
           ↔ ∀ i < targets.length, reply i = DownloadDoneStatus.success)
        ∧ ((∃ i < targets.length, reply i = DownloadDoneStatus.failed) →
            (handleQueuedForDownload transfer planResult reply).attached = none
            ∧ (handleQueuedForDownload transfer planResult reply).emitted = [])) := by
  constructor
  · intro e he
    subst he
    rfl
  · intro targets ht
    subst ht
    by_cases hall : ((List.range targets.length).map reply).all
        (fun s => s == DownloadDoneStatus.success) = true
    · have hval : handleQueuedForDownload transfer (Except.ok targets) reply =
          { dispatched := targets, attached := some targets,
            emitted := [{ type := TransferMessageType.downloaded,
                          transfer := transfer.SetTargets targets }] } := by
        simp [handleQueuedForDownload, hall]
      have hforall := (range_map_all_success reply targets.length).1 hall
      refine ⟨by rw [hval], iff_of_true hval hforall, ?_⟩
      rintro ⟨i, hi, hfail⟩
      rw [hforall i hi] at hfail
      exact absurd hfail (by simp)
    · have hval : handleQueuedForDownload transfer (Except.ok targets) reply =
          { dispatched := targets, attached := none, emitted := [] } := by
        simp [handleQueuedForDownload, hall]
      refine ⟨by rw [hval], ?_, fun _ => by rw [hval]; exact ⟨rfl, rfl⟩⟩
      constructor
      · intro heq
        exfalso
        rw [hval] at heq
        have := congrArg QueuedOutcome.attached heq
        simp at this
      · intro hforall
        exact absurd ((range_map_all_success reply targets.length).2 hforall) hall

/-- C2 witness: a one-target plan whose download succeeds dispatches the
target, attaches the plan and emits `Downloaded`. -/
theorem c2_queued_handling_witness :
    handleQueuedForDownload
      { name := "T", fileID := some 1, hash := none, transferID := 1, targets := [] }
      (Except.ok [{ fromURL := "u", toPath := "/d/T/x", targetType := TargetType.file,
                    topLevel := true, transferHash := "0000" }])
      (fun _ => DownloadDoneStatus.success) =
      { dispatched := [{ fromURL := "u", toPath := "/d/T/x", targetType := TargetType.file,
                         topLevel := true, transferHash := "0000" }]
        attached := some [{ fromURL := "u", toPath := "/d/T/x", targetType := TargetType.file,
                            topLevel := true, transferHash := "0000" }]
        emitted := [{ type := TransferMessageType.downloaded,
                      transfer := { name := "T", fileID := some 1, hash := none, transferID := 1,
                                    targets := [{ fromURL := "u", toPath := "/d/T/x",
                                                  targetType := TargetType.file,
                                                  topLevel := true, transferHash := "0000" }] } }] } := by
  exact ((c2_queued_handling
    { name := "T", fileID := some 1, hash := none, transferID := 1, targets := [] }
    (Except.ok [{ fromURL := "u", toPath := "/d/T/x", targetType := TargetType.file,
                  topLevel := true, transferHash := "0000" }])
    (fun _ => DownloadDoneStatus.success)).2 _ rfl).2.1.mpr (fun i _ => rfl)

theorem removeLoop_mem_removeTransfer (ids : List String) (dld : Bool)
    (removeOK : Nat → Bool) :
    ∀ (transfers : List PutioTransfer) (n : Nat),
      RemoteCall.removeTransfer n ∈ removeLoop ids dld removeOK transfers ↔
        ∃ t ∈ transfers, n = t.id ∧ ∃ h, t.hash = some h ∧ h ∈ ids := by
  intro transfers
  induction transfers with
  | nil => intro n; simp [removeLoop]
  | cons t rest ih =>
      intro n
      cases hh : t.hash with
      | none => simp [removeLoop, hh, ih]
      | some h =>
          by_cases hc : ids.contains h = true
          · by_cases hok : removeOK t.id = true
            · by_cases hud : (t.userfileExists && dld) = true
              · cases hfid : t.fileID with
                | none =>
                    simp [removeLoop, hh, hc, hok, hud, hfid, ih, List.elem_iff.mp hc]
                | some fid =>
                    simp [removeLoop, hh, hc, hok, hud, hfid, ih, List.elem_iff.mp hc]
              · simp [removeLoop, hh, hc, hok, hud, ih, List.elem_iff.mp hc]
            · simp [removeLoop, hh, hc, hok, ih, List.elem_iff.mp hc]
          · have hnot : h ∉ ids := fun hmem => hc (List.elem_iff.mpr hmem)
            simp [removeLoop, hh, hc, ih, hnot]

theorem removeLoop_mem_deleteFile (ids : List String) (removeOK : Nat → Bool) :
    ∀ (dld : Bool) (transfers : List PutioTransfer) (fid : Int),
      RemoteCall.deleteFile fid ∈ removeLoop ids dld removeOK transfers ↔
        ∃ t ∈ transfers, some fid = t.fileID ∧ (∃ h, t.hash = some h ∧ h ∈ ids)
          ∧ removeOK t.id = true ∧ t.userfileExists = true ∧ dld = true := by
  intro dld transfers
  induction transfers with
  | nil => intro fid; simp [removeLoop]
  | cons t rest ih =>
      intro fid
      cases hh : t.hash with
      | none => simp [removeLoop, hh, ih]
      | some h =>
          by_cases hc : ids.contains h = true
          · by_cases hok : removeOK t.id = true
            · by_cases hud : (t.userfileExists && dld) = true
              · simp only [Bool.and_eq_true] at hud
                obtain ⟨hu, hd⟩ := hud
                subst hd
                cases hfid : t.fileID with
                | none =>
                    simp [removeLoop, hh, hc, hok, hu, hfid, ih, List.elem_iff.mp hc]
                | some f =>
                    simp [removeLoop, hh, hc, hok, hu, hfid, ih, List.elem_iff.mp hc]
              · have hcond : ¬(t.userfileExists = true ∧ dld = true) := by
                  simpa [Bool.and_eq_true] using hud
                simp [removeLoop, hh, hc, hok, ih, List.elem_iff.mp hc, hcond]
            · simp [removeLoop, hh, hc, hok, ih, List.elem_iff.mp hc]
          · have hnot : h ∉ ids := fun hmem => hc (List.elem_iff.mpr hmem)
            simp [removeLoop, hh, hc, ih, hnot]

/-- C8 counterexample: one listed transfer matches the requested hash
with delete-local-data set, its userfile exists and its file id present,
yet when the `removeTransfer` call fails no `deleteFile` call is made —
the claimed iff for `deleteFile` is violated (while `removeTransfer` was
attempted and the RPC still succeeds). -/
theorem c8_delete_skipped_counterexample :
    RemoteCall.deleteFile 7 ∉
      (handleTorrentRemove { ids := ["h"], deleteLocalData := true }
        [{ id := 1, hash := some "h", name := none, status := "SEEDING",
           fileID := some 7, userfileExists := true }]
        (fun _ => false)).1
    ∧ RemoteCall.removeTransfer 1 ∈
      (handleTorrentRemove { ids := ["h"], deleteLocalData := true }
        [{ id := 1, hash := some "h", name := none, status := "SEEDING",
           fileID := some 7, userfileExists := true }]
        (fun _ => false)).1
    ∧ (handleTorrentRemove { ids := ["h"], deleteLocalData := true }
        [{ id := 1, hash := some "h", name := none, status := "SEEDING",
           fileID := some 7, userfileExists := true }]
        (fun _ => false)).2 = "success" := by
  refine ⟨?_, ?_, rfl⟩
  · decide
  · decide

/-- C8 (amended): `removeTransfer` is called exactly for the listed
transfers whose hash equals some requested id (transfers without a hash
are never matched and unmatched ids cause no remote call), the RPC
response is success regardless, and `deleteFile` is additionally called
for such a transfer if and only if delete-local-data is set, its userfile
exists, its file id is present **and its `removeTransfer` call
succeeded**. -/
theorem c8_torrent_remove (args : TorrentRemoveArguments)
    (transfers : List PutioTransfer) (removeOK : Nat → Bool) :
    ((handleTorrentRemove args transfers removeOK).2 = "success")
    ∧ (∀ n, RemoteCall.removeTransfer n ∈ (handleTorrentRemove args transfers removeOK).1 ↔
        ∃ t ∈ transfers, n = t.id ∧ ∃ h, t.hash = some h ∧ h ∈ args.ids)
    ∧ (∀ fid, RemoteCall.deleteFile fid ∈ (handleTorrentRemove args transfers removeOK).1 ↔
        ∃ t ∈ transfers, some fid = t.fileID ∧ (∃ h, t.hash = some h ∧ h ∈ args.ids)
          ∧ removeOK t.id = true ∧ t.userfileExists = true ∧ args.deleteLocalData = true) := by
  by_cases hempty : args.ids.isEmpty = true
  · have hids : args.ids = [] := by simpa [List.isEmpty_iff] using hempty
    refine ⟨by simp [handleTorrentRemove, hempty], ?_, ?_⟩
    · intro n
      simp [handleTorrentRemove, hempty, hids]
    · intro fid
      simp [handleTorrentRemove, hempty, hids]
  · refine ⟨by simp [handleTorrentRemove, hempty], ?_, ?_⟩
    · intro n
      rw [show (handleTorrentRemove args transfers removeOK).1 =
        removeLoop args.ids args.deleteLocalData removeOK transfers from by
          simp [handleTorrentRemove, hempty]]
      exact removeLoop_mem_removeTransfer args.ids args.deleteLocalData removeOK transfers n
    · intro fid
      rw [show (handleTorrentRemove args transfers removeOK).1 =
        removeLoop args.ids args.deleteLocalData removeOK transfers from by
          simp [handleTorrentRemove, hempty]]
      exact removeLoop_mem_deleteFile args.ids removeOK args.deleteLocalData transfers fid

/-- C8 witness: with a successful removal, a matching transfer with
userfile and file id receives both remote calls. -/
theorem c8_torrent_remove_witness :
    RemoteCall.deleteFile 7 ∈
      (handleTorrentRemove { ids := ["h"], deleteLocalData := true }
        [{ id := 1, hash := some "h", name := none, status := "SEEDING",
           fileID := some 7, userfileExists := true }]
        (fun _ => true)).1 := by
  exact ((c8_torrent_remove { ids := ["h"], deleteLocalData := true }
    [{ id := 1, hash := some "h", name := none, status := "SEEDING",
       fileID := some 7, userfileExists := true }]
    (fun _ => true)).2.2 7).mpr
    ⟨{ id := 1, hash := some "h", name := none, status := "SEEDING",
       fileID := some 7, userfileExists := true },
     by decide, rfl, ⟨"h", rfl, by decide⟩, rfl, rfl, rfl⟩

theorem produceLoop_seen_mono :
    ∀ (listing : List PutioTransfer) (seen : List Nat) (x : Nat),
      x ∈ seen → x ∈ (produceLoop seen listing).2 := by
  intro listing
  induction listing with
  | nil => intro seen x hx; simpa [produceLoop] using hx
  | cons pt rest ih =>
      intro seen x hx
      by_cases hskip : (seen.contains pt.id || !pt.IsDownloadable) = true
      · rw [produceLoop, if_pos hskip]
        exact ih seen x hx
      · rw [produceLoop, if_neg hskip]
        exact ih (pt.id :: seen) x (List.mem_cons_of_mem _ hx)

theorem produceLoop_count_eq_zero (id : Nat) :
    ∀ (listing : List PutioTransfer) (seen : List Nat),
      id ∈ seen → countQueued id (produceLoop seen listing).1 = 0 := by
  intro listing
  induction listing with
  | nil => intro seen _; simp [produceLoop, countQueued]
  | cons pt rest ih =>
      intro seen hseen
      by_cases hskip : (seen.contains pt.id || !pt.IsDownloadable) = true
      · rw [produceLoop, if_pos hskip]
        exact ih seen hseen
      · rw [produceLoop, if_neg hskip]
        have hne : pt.id ≠ id := by
          intro he
          apply hskip
          simp only [Bool.or_eq_true]
          exact Or.inl (by rw [he]; exact List.elem_iff.mpr hseen)
        have htail := ih (pt.id :: seen) (List.mem_cons_of_mem _ hseen)
        simp [countQueued, List.countP_cons, NewTransfer, hne] at htail ⊢
        exact htail

theorem produceLoop_count_le_one (id : Nat) :
    ∀ (listing : List PutioTransfer) (seen : List Nat),
      countQueued id (produceLoop seen listing).1 ≤ 1
      ∧ (1 ≤ countQueued id (produceLoop seen listing).1 →
          id ∈ (produceLoop seen listing).2) := by
  intro listing
  induction listing with
  | nil => intro seen; simp [produceLoop, countQueued]
  | cons pt rest ih =>
      intro seen
      by_cases hskip : (seen.contains pt.id || !pt.IsDownloadable) = true
      · rw [produceLoop, if_pos hskip]
        exact ih seen
      · rw [produceLoop, if_neg hskip]
        by_cases hid : pt.id = id
        · subst hid
          have hz := produceLoop_count_eq_zero pt.id rest (pt.id :: seen)
            (List.mem_cons_self _ _)
          constructor
          · simp [countQueued, List.countP_cons, NewTransfer]
            simpa [countQueued] using hz
          · intro _
            exact produceLoop_seen_mono rest (pt.id :: seen) pt.id
              (List.mem_cons_self _ _)
        · have := ih (pt.id :: seen)
          constructor
          · simpa [countQueued, List.countP_cons, NewTransfer, hid] using this.1
          · intro h1
            apply this.2
            simpa [countQueued, List.countP_cons, NewTransfer, hid] using h1

theorem cleanupSeen_mem (seen : List Nat) (listing : List PutioTransfer) (x : Nat) :
    x ∈ cleanupSeen seen listing ↔
      x ∈ seen ∧ listing.any (fun t => t.id == x) = true := by
  simp [cleanupSeen, List.mem_filter]

theorem produceRun_count_bound (id : Nat) :
    ∀ (ticks : List (Except Unit (List PutioTransfer))) (seen : List Nat),
      presentInEveryListing id ticks = true →
      countQueued id (produceRun seen ticks) ≤ (if id ∈ seen then 0 else 1) := by
  intro ticks
  induction ticks with
  | nil =>
      intro seen _
      simp [produceRun, countQueued]
  | cons p rest ih =>
      intro seen hp
      match p with
      | Except.error e =>
          have hp' : presentInEveryListing id rest = true := by
            simpa [presentInEveryListing] using hp
          rw [show produceRun seen (Except.error e :: rest) = produceRun seen rest from rfl]
          exact ih seen hp'
      | Except.ok l =>
          have hl : l.any (fun t => t.id == id) = true := by
            have := hp
            simp only [presentInEveryListing, List.all_cons, Bool.and_eq_true] at this
            exact this.1
          have hp' : presentInEveryListing id rest = true := by
            have := hp
            simp only [presentInEveryListing, List.all_cons, Bool.and_eq_true] at this
            exact this.2
          have hsplit : produceRun seen (Except.ok l :: rest) =
              (produceTick seen l).1 ++ produceRun (produceTick seen l).2 rest := rfl
          rw [hsplit]
          have happ : countQueued id ((produceTick seen l).1 ++
              produceRun (produceTick seen l).2 rest) =
              countQueued id (produceTick seen l).1 +
                countQueued id (produceRun (produceTick seen l).2 rest) := by
            simp [countQueued, List.countP_append]
          rw [happ]
          by_cases hseen : id ∈ seen
          · have hz : countQueued id (produceTick seen l).1 = 0 := by
              have := produceLoop_count_eq_zero id l seen hseen
              simpa [produceTick] using this
            have hmem1 : id ∈ (produceTick seen l).2 := by
              have hmono := produceLoop_seen_mono l seen id hseen
              simp only [produceTick]
              exact (cleanupSeen_mem _ _ _).mpr ⟨hmono, hl⟩
            have hrest := ih (produceTick seen l).2 hp'
            rw [if_pos hmem1] at hrest
            simp [hseen, hz]
            omega
          · have hbound := produceLoop_count_le_one id l seen
            have htick_le : countQueued id (produceTick seen l).1 ≤ 1 := by
              simpa [produceTick] using hbound.1
            rw [if_neg hseen]
            by_cases hzero : countQueued id (produceTick seen l).1 = 0
            · have hrest := ih (produceTick seen l).2 hp'
              have : countQueued id (produceRun (produceTick seen l).2 rest) ≤ 1 := by
                rcases le_or_lt 1 (if id ∈ (produceTick seen l).2 then 0 else 1) with h | h
                · exact hrest.trans (by split <;> omega)
                · exact hrest.trans (by split <;> omega)
              omega
            · have hone : 1 ≤ countQueued id (produceTick seen l).1 := by omega
              have hmemLoop : id ∈ (produceLoop seen l).2 := by
                apply hbound.2
                simpa [produceTick] using hone
              have hmem1 : id ∈ (produceTick seen l).2 := by
                simp only [produceTick]
                exact (cleanupSeen_mem _ _ _).mpr ⟨hmemLoop, hl⟩
              have hrest := ih (produceTick seen l).2 hp'
              rw [if_pos hmem1] at hrest
              omega

/-- C1: for every transfer id present in every successfully fetched
listing of a run, the polling producer emits the Queued message at most
once across the whole run (on each tick it skips ids already seen or
transfers without a file id, marks an id seen right after emitting for
it), and after any tick the seen set only contains ids of currently
listed transfers (it is pruned to the intersection with the listing). -/
theorem c1_queued_at_most_once (id : Nat) (seen : List Nat)
    (ticks : List (Except Unit (List PutioTransfer)))
    (hp : presentInEveryListing id ticks = true) :
    countQueued id (produceRun seen ticks) ≤ 1
    ∧ ∀ (s : List Nat) (listing : List PutioTransfer) (x : Nat),
        x ∈ (produceTick s listing).2 → listing.any (fun t => t.id == x) = true := by
  constructor
  · exact (produceRun_count_bound id ticks seen hp).trans (by split <;> omega)
  · intro s listing x hx
    exact ((cleanupSeen_mem _ _ _).mp (by simpa [produceTick] using hx)).2

/-- C1 witness: a transfer with a file id listed on two consecutive
ticks is queued exactly once over the run. -/
theorem c1_queued_at_most_once_witness :
    countQueued 5 (produceRun []
      [Except.ok [{ id := 5, hash := none, name := some "A", status := "SEEDING",
                    fileID := some 3, userfileExists := true }],
       Except.ok [{ id := 5, hash := none, name := some "A", status := "SEEDING",
                    fileID := some 3, userfileExists := true }]]) ≤ 1 := by
  exact (c1_queued_at_most_once 5 []
    [Except.ok [{ id := 5, hash := none, name := some "A", status := "SEEDING",
                  fileID := some 3, userfileExists := true }],
     Except.ok [{ id := 5, hash := none, name := some "A", status := "SEEDING",
                  fileID := some 3, userfileExists := true }]] (by decide)).1

theorem path_append_ne_empty (a b : String) : a ++ "/" ++ b ≠ "" := by
  intro h
  have hlen : (a ++ "/" ++ b).length = 0 := by rw [h]; rfl
  rw [String.length_append, String.length_append] at hlen
  have : ("/" : String).length = 1 := rfl
  omega

theorem path_append_assoc (a b c : String) :
    (a ++ "/" ++ b) ++ "/" ++ c = a ++ "/" ++ (b ++ "/" ++ c) := by
  simp [String.append_assoc]

mutual
theorem recurse_eq_pruned (cfg : Config) (urlOf : Int → String) (hash : String) :
    ∀ (t : FileTree) (basePath : String) (topLevel : Bool),
      recurseDownloadTargets cfg urlOf hash t basePath topLevel =
        (match pruneSkipped cfg.skipDirectories t with
         | none => []
         | some t' => recurseDownloadTargets cfg urlOf hash t' basePath topLevel) := by
  intro t basePath topLevel
  match t with
  | FileTree.node info children =>
      by_cases hf : info.fileType = "FOLDER"
      · by_cases hs : ShouldSkipDirectory info.name cfg.skipDirectories = true
        · simp [recurseDownloadTargets, pruneSkipped, hf, hs]
        · have hprune : pruneSkipped cfg.skipDirectories (FileTree.node info children) =
              some (FileTree.node info (pruneForest cfg.skipDirectories children)) := by
            rw [pruneSkipped, if_neg (fun hx => hs hx.2)]
          rw [hprune]
          dsimp only
          rw [recurseDownloadTargets, if_pos hf, if_neg hs]
          rw [recurseDownloadTargets, if_pos hf, if_neg hs]
          exact congrArg _ (recurseChildren_eq_pruned cfg urlOf hash children
            (joinPath (if basePath = "" then cfg.downloadDirectory else basePath) info.name))
      · have hcond : ¬(info.fileType = "FOLDER" ∧
            ShouldSkipDirectory info.name cfg.skipDirectories = true) := by
          intro hx; exact hf hx.1
        rw [pruneSkipped, if_neg hcond]
        by_cases hv : info.fileType = "VIDEO"
        · simp [recurseDownloadTargets, hf, hv]
        · simp [recurseDownloadTargets, hf, hv]

theorem recurseChildren_eq_pruned (cfg : Config) (urlOf : Int → String) (hash : String) :
    ∀ (cs : List FileTree) (base : String),
      recurseChildren cfg urlOf hash cs base =
        recurseChildren cfg urlOf hash (pruneForest cfg.skipDirectories cs) base := by
  intro cs base
  match cs with
  | [] => rfl
  | c :: rest =>
      rw [recurseChildren, pruneForest]
      cases hp : pruneSkipped cfg.skipDirectories c with
      | none =>
          have hc := recurse_eq_pruned cfg urlOf hash c base false
          rw [hp] at hc
          rw [hc]
          simpa using recurseChildren_eq_pruned cfg urlOf hash rest base
      | some c' =>
          have hc := recurse_eq_pruned cfg urlOf hash c base false
          rw [hp] at hc
          rw [recurseChildren, hc]
          rw [recurseChildren_eq_pruned cfg urlOf hash rest base]
end

/-- C5: skipped directories contribute nothing at any depth: the plan of
a tree equals the plan of the tree with every skipped-directory subtree
removed (`pruneSkipped`, written from the spec's skip semantics), and in
particular a FOLDER node whose case-folded name is in the skip set
produces no target for itself nor for anything in its subtree. -/
theorem c5_skip_directories (cfg : Config) (urlOf : Int → String) (hash : String)
    (info : FileResponse) (children : List FileTree) (t : FileTree)
    (basePath : String) (topLevel : Bool) :
    (info.fileType = "FOLDER" →
      ShouldSkipDirectory info.name cfg.skipDirectories = true →
      recurseDownloadTargets cfg urlOf hash (FileTree.node info children) basePath topLevel = [])
    ∧ recurseDownloadTargets cfg urlOf hash t basePath topLevel =
        (match pruneSkipped cfg.skipDirectories t with
         | none => []
         | some t' => recurseDownloadTargets cfg urlOf hash t' basePath topLevel) := by
  constructor
  · intro hf hs
    simp [recurseDownloadTargets, hf, hs]
  · exact recurse_eq_pruned cfg urlOf hash t basePath topLevel

/-- C5 witness: a root folder named "Sample" with a video child yields an
empty plan under the default skip set. -/
theorem c5_skip_directories_witness :
    recurseDownloadTargets { downloadDirectory := "/downloads", skipDirectories := ["sample"] }
      (fun _ => "https://cdn/x") "abcd"
      (FileTree.node { id := 1, name := "Sample", fileType := "FOLDER" }
        [FileTree.node { id := 2, name := "x.mkv", fileType := "VIDEO" } []]) "" true = [] := by
  exact (c5_skip_directories
    { downloadDirectory := "/downloads", skipDirectories := ["sample"] }
    (fun _ => "https://cdn/x") "abcd"
    { id := 1, name := "Sample", fileType := "FOLDER" }
    [FileTree.node { id := 2, name := "x.mkv", fileType := "VIDEO" } []]
    (FileTree.node { id := 1, name := "Sample", fileType := "FOLDER" }
      [FileTree.node { id := 2, name := "x.mkv", fileType := "VIDEO" } []])
    "" true).1 rfl (by decide)

mutual
theorem recurse_topLevel_false (cfg : Config) (urlOf : Int → String) (hash : String) :
    ∀ (t : FileTree) (basePath : String),
      ∀ x ∈ recurseDownloadTargets cfg urlOf hash t basePath false, x.topLevel = false := by
  intro t basePath x hx
  match t with
  | FileTree.node info children =>
      by_cases hf : info.fileType = "FOLDER"
      · by_cases hs : ShouldSkipDirectory info.name cfg.skipDirectories = true
        · rw [recurseDownloadTargets, if_pos hf, if_pos hs] at hx
          simp at hx
        · rw [recurseDownloadTargets, if_pos hf, if_neg hs] at hx
          rcases List.mem_cons.mp hx with h | h
          · rw [h]
          · exact recurseChildren_topLevel_false cfg urlOf hash children _ x h
      · by_cases hv : info.fileType = "VIDEO"
        · rw [recurseDownloadTargets, if_neg hf, if_pos hv] at hx
          simp at hx
          rw [hx]
        · rw [recurseDownloadTargets, if_neg hf, if_neg hv] at hx
          simp at hx

theorem recurseChildren_topLevel_false (cfg : Config) (urlOf : Int → String) (hash : String) :
    ∀ (cs : List FileTree) (base : String),
      ∀ x ∈ recurseChildren cfg urlOf hash cs base, x.topLevel = false := by
  intro cs base x hx
  match cs with
  | [] => simp [recurseChildren] at hx
  | c :: rest =>
      rw [recurseChildren] at hx
      rcases List.mem_append.mp hx with h | h
      · exact recurse_topLevel_false cfg urlOf hash c base x h
      · exact recurseChildren_topLevel_false cfg urlOf hash rest base x h
end

mutual
theorem recurse_path_under (cfg : Config) (urlOf : Int → String) (hash : String) :
    ∀ (t : FileTree) (basePath : String) (topLevel : Bool),
      namesNonempty t = true →
      (if basePath = "" then cfg.downloadDirectory else basePath) ≠ "" →
      ∀ x ∈ recurseDownloadTargets cfg urlOf hash t basePath topLevel,
        ∃ s, s ≠ "" ∧
          x.toPath = (if basePath = "" then cfg.downloadDirectory else basePath) ++ "/" ++ s := by
  intro t basePath topLevel hn hb x hx
  match t with
  | FileTree.node info children =>
      rw [namesNonempty, Bool.and_eq_true] at hn
      have hname : info.name ≠ "" := by simpa using hn.1
      have hdest : joinPath (if basePath = "" then cfg.downloadDirectory else basePath)
          info.name = (if basePath = "" then cfg.downloadDirectory else basePath)
            ++ "/" ++ info.name := by
        rw [joinPath, if_neg hb]
      by_cases hf : info.fileType = "FOLDER"
      · by_cases hs : ShouldSkipDirectory info.name cfg.skipDirectories = true
        · rw [recurseDownloadTargets, if_pos hf, if_pos hs] at hx
          simp at hx
        · rw [recurseDownloadTargets, if_pos hf, if_neg hs] at hx
          rcases List.mem_cons.mp hx with h | h
          · exact ⟨info.name, hname, by rw [h]; exact hdest⟩
          · have hforest := recurseChildren_path_under cfg urlOf hash children
              (joinPath (if basePath = "" then cfg.downloadDirectory else basePath) info.name)
              hn.2 (by rw [hdest]; exact path_append_ne_empty _ _) x h
            obtain ⟨s, hsne, hpath⟩ := hforest
            refine ⟨info.name ++ "/" ++ s, path_append_ne_empty _ _, ?_⟩
            rw [hpath, hdest, path_append_assoc]
      · by_cases hv : info.fileType = "VIDEO"
        · rw [recurseDownloadTargets, if_neg hf, if_pos hv] at hx
          simp at hx
          rw [hx]
          exact ⟨info.name, hname, hdest⟩
        · rw [recurseDownloadTargets, if_neg hf, if_neg hv] at hx
          simp at hx

theorem recurseChildren_path_under (cfg : Config) (urlOf : Int → String) (hash : String) :
    ∀ (cs : List FileTree) (base : String),
      forestNamesNonempty cs = true → base ≠ "" →
      ∀ x ∈ recurseChildren cfg urlOf hash cs base,
        ∃ s, s ≠ "" ∧ x.toPath = base ++ "/" ++ s := by
  intro cs base hn hb x hx
  match cs with
  | [] => simp [recurseChildren] at hx
  | c :: rest =>
      rw [forestNamesNonempty, Bool.and_eq_true] at hn
      rw [recurseChildren] at hx
      rcases List.mem_append.mp hx with h | h
      · have := recurse_path_under cfg urlOf hash c base false hn.1
          (by rw [if_neg hb]; exact hb) x h
        simpa [if_neg hb] using this
      · exact recurseChildren_path_under cfg urlOf hash rest base hn.2 hb x h
end

/-- C6: the plan is in pre-order with the root flag only on the outermost
target: every target produced below the top level has `TopLevel = false`;
a top-level plan is empty or starts with its unique `TopLevel = true`
target followed only by `TopLevel = false` ones; nodes that are neither
FOLDER nor VIDEO contribute no targets; and an unskipped FOLDER node's
plan is its directory target first, with every further target of the
subtree lying strictly under that directory's path. -/
theorem c6_preorder_toplevel (cfg : Config) (urlOf : Int → String) (hash : String)
    (info : FileResponse) (children : List FileTree)
    (basePath : String) (topLevel : Bool) :
    (∀ (t' : FileTree) (bp : String),
      ∀ x ∈ recurseDownloadTargets cfg urlOf hash t' bp false, x.topLevel = false)
    ∧ (recurseDownloadTargets cfg urlOf hash (FileTree.node info children) basePath true = []
        ∨ ∃ hd tl', recurseDownloadTargets cfg urlOf hash
            (FileTree.node info children) basePath true = hd :: tl'
          ∧ hd.topLevel = true ∧ ∀ x ∈ tl', x.topLevel = false)
    ∧ (info.fileType ≠ "FOLDER" → info.fileType ≠ "VIDEO" →
        recurseDownloadTargets cfg urlOf hash (FileTree.node info children) basePath topLevel = [])
    ∧ (info.fileType = "FOLDER" →
        ShouldSkipDirectory info.name cfg.skipDirectories = false →
        namesNonempty (FileTree.node info children) = true →
        (if basePath = "" then cfg.downloadDirectory else basePath) ≠ "" →
        ∃ rest, recurseDownloadTargets cfg urlOf hash
            (FileTree.node info children) basePath topLevel =
          { fromURL := "",
            toPath := joinPath (if basePath = "" then cfg.downloadDirectory else basePath)
              info.name,
            targetType := TargetType.directory, topLevel := topLevel,
            transferHash := hash } :: rest
          ∧ ∀ x ∈ rest, ∃ s, s ≠ "" ∧
              x.toPath = joinPath (if basePath = "" then cfg.downloadDirectory else basePath)
                info.name ++ "/" ++ s) := by
  refine ⟨recurse_topLevel_false cfg urlOf hash, ?_, ?_, ?_⟩
  · by_cases hf : info.fileType = "FOLDER"
    · by_cases hs : ShouldSkipDirectory info.name cfg.skipDirectories = true
      · left
        rw [recurseDownloadTargets, if_pos hf, if_pos hs]
      · right
        refine ⟨_, _, by rw [recurseDownloadTargets, if_pos hf, if_neg hs], rfl, ?_⟩
        intro x hx
        exact recurseChildren_topLevel_false cfg urlOf hash children _ x hx
    · by_cases hv : info.fileType = "VIDEO"
      · right
        refine ⟨_, _, by rw [recurseDownloadTargets, if_neg hf, if_pos hv], rfl, ?_⟩
        intro x hx
        simp at hx
      · left
        rw [recurseDownloadTargets, if_neg hf, if_neg hv]
  · intro hf hv
    rw [recurseDownloadTargets, if_neg hf, if_neg hv]
  · intro hf hs hn hb
    rw [namesNonempty, Bool.and_eq_true] at hn
    refine ⟨recurseChildren cfg urlOf hash children
      (joinPath (if basePath = "" then cfg.downloadDirectory else basePath) info.name),
      by rw [recurseDownloadTargets, if_pos hf, if_neg (by simp [hs])], ?_⟩
    intro x hx
    have hdest : joinPath (if basePath = "" then cfg.downloadDirectory else basePath)
        info.name = (if basePath = "" then cfg.downloadDirectory else basePath)
          ++ "/" ++ info.name := by
      rw [joinPath, if_neg hb]
    exact recurseChildren_path_under cfg urlOf hash children _ hn.2
      (by rw [hdest]; exact path_append_ne_empty _ _) x hx

/-- C6 witness: a FOLDER root "Movie" with one VIDEO child and one TEXT
child yields a plan led by the root directory target with the file target
under it. -/
theorem c6_preorder_toplevel_witness :
    ∃ rest, recurseDownloadTargets
        { downloadDirectory := "/downloads", skipDirectories := ["sample"] }
        (fun _ => "https://cdn/x") "abcd"
        (FileTree.node { id := 1, name := "Movie", fileType := "FOLDER" }
          [FileTree.node { id := 2, name := "x.mkv", fileType := "VIDEO" } [],
           FileTree.node { id := 3, name := "n.nfo", fileType := "TEXT" } []]) "" true =
      { fromURL := "", toPath := joinPath "/downloads" "Movie",
        targetType := TargetType.directory, topLevel := true,
        transferHash := "abcd" } :: rest
      ∧ ∀ x ∈ rest, ∃ s, s ≠ "" ∧ x.toPath = joinPath "/downloads" "Movie" ++ "/" ++ s := by
  exact (c6_preorder_toplevel
    { downloadDirectory := "/downloads", skipDirectories := ["sample"] }
    (fun _ => "https://cdn/x") "abcd"
    { id := 1, name := "Movie", fileType := "FOLDER" }
    [FileTree.node { id := 2, name := "x.mkv", fileType := "VIDEO" } [],
     FileTree.node { id := 3, name := "n.nfo", fileType := "TEXT" } []]
    "" true).2.2.2 rfl (by decide) (by decide) (by decide)

end Goputioarr
